import Mathlib

/-!
Verification of the rusty_pom pomodoro timer (src/main.rs) against its
natural-language specification.

The embedding is a shallow translation of the program:

* the persisted state file is a value of type `Option (List Char)`
  (`none` models a failing `File::open`, `some content` the file's bytes);
* `serde_json` serialization of `SavedState { seconds_remaining: u64 }`
  is modelled at the character level: `serializeState` produces the exact
  string `serde_json::to_string` emits, and `parseState` accepts exactly
  the canonical JSON number record (digit run without leading zero,
  value within `u64` range) — the format `save_state` writes;
* Rust panics (`expect`, `unwrap`, `Duration` subtraction underflow,
  `i32` negation overflow) are modelled as `Except.error` carrying the
  panic message, since a panic aborts the process with non-zero status;
* the one-tick-per-second `while` loop is modelled discretely: each
  `sleep(1s)` advances elapsed time by exactly one second, so elapsed
  time after `j` iterations is `j`; the atomic interruption flag is a
  function `flag : Nat → Bool` giving the value observed at tick `j`.
  The loop is written with explicit fuel `dur`, which bounds the
  iteration count because every iteration increments `elapsed` and the
  loop condition requires `elapsed < dur`.
* display-only effects (progress bar, log lines, stdout) are omitted;
  the externally meaningful effects — state-file writes and the
  completion notification — are recorded in an event trace.
-/

deriving instance DecidableEq for Except

namespace RustyPom

/-- Externally meaningful side effects of a run: a write of the persisted
state file (`save_state`) and the completion toast notification. -/
inductive Event where
  | writeState (n : Nat) : Event
  | notify : Event
  deriving DecidableEq

/-- Returns true exactly on the state-file write events of a trace. -/
def isStateWrite : Event → Bool
  | Event.writeState _ => true
  | Event.notify => false

/-- Little-endian base-10 digits of a positive number, computed with
explicit fuel so that the definition reduces in the kernel; with
`fuel ≥ n` it agrees with Mathlib's `Nat.digits 10 n`
(lemma `natDigits_eq` below). -/
def natDigitsAux : Nat → Nat → List Nat
  | 0, _ => []
  | _ + 1, 0 => []
  | fuel + 1, n + 1 => (n + 1) % 10 :: natDigitsAux fuel ((n + 1) / 10)

/-- Little-endian base-10 digits of a natural number (empty for `0`). -/
def natDigits (n : Nat) : List Nat := natDigitsAux n n

/-- Decimal rendering of a natural number, as `serde_json` emits it:
most-significant digit first, a lone zero for `0`. -/
def natChars (n : Nat) : List Char :=
  if n = 0 then ['0'] else ((natDigits n).map Nat.digitChar).reverse

/-- Characters of the fixed JSON framing written by
`serde_json::to_string(&SavedState \x7b seconds_remaining \x7d)`:
an opening brace, the quoted field name, and the colon. -/
def stateHeader : List Char :=
  ['\x7b', '"', 's', 'e', 'c', 'o', 'n', 'd', 's', '_',
   'r', 'e', 'm', 'a', 'i', 'n', 'i', 'n', 'g', '"', ':']

/-- Content of the state file after `save_state(n)`:
the serialization `\x7b"seconds_remaining":n\x7d`. -/
def serializeState (n : Nat) : List Char :=
  stateHeader ++ natChars n ++ ['\x7d']

/-- Decimal digit test on a character (byte range 48–57). -/
def isDigitCh (c : Char) : Bool := 48 ≤ c.toNat && c.toNat ≤ 57

/-- Numeric value of a digit character. -/
def charVal (c : Char) : Nat := c.toNat - 48

/-- Value of a most-significant-first digit run. -/
def valOfDigits (l : List Char) : Nat :=
  l.foldl (fun a c => a * 10 + charVal c) 0

/-- Consumes an expected head sequence from a character list, returning
the remainder on an exact match. -/
def matchHead : List Char → List Char → Option (List Char)
  | [], rest => some rest
  | _ :: _, [] => none
  | p :: ps, c :: cs => if c = p then matchHead ps cs else none

/-- Modelled `serde_json::from_reader` for `SavedState`, restricted to the
canonical serialization `save_state` writes: the fixed header, a nonempty
digit run with no leading zero (JSON number grammar), the value within
`u64` range, and the closing brace.  `none` models a parse error. -/
def parseState (content : List Char) : Option Nat :=
  match matchHead stateHeader content with
  | none => none
  | some rest =>
    let ds := rest.takeWhile isDigitCh
    let tl := rest.dropWhile isDigitCh
    if ds ≠ [] ∧ (1 < ds.length → ds.head? ≠ some '0') ∧ tl = ['\x7d'] ∧
        valOfDigits ds < 2 ^ 64 then
      some (valOfDigits ds)
    else none

/-- Embedding of `get_saved_state` (src/main.rs lines 133–143): a failing
`File::open` yields `seconds_remaining = 0`; a successful open followed by
a `serde_json` parse failure hits
`.expect("error while reading json")`, which panics — modelled as
`Except.error` with the panic message. -/
def get_saved_state (file : Option (List Char)) : Except String Nat :=
  match file with
  | none => Except.ok 0
  | some content =>
    match parseState content with
    | some n => Except.ok n
    | none => Except.error "error while reading json"

/-- Embedding of `PomApp::save_state` (src/main.rs lines 39–46):
`File::create` failure panics with "cannot create state file", a write
failure panics with "error writing to state file"; on success the file
holds the serialization of `n`.  The two booleans model the outcome of
the two fallible file operations. -/
def save_state (createOk writeOk : Bool) (n : Nat) : Except String (List Char) :=
  if createOk = false then Except.error "cannot create state file"
  else if writeOk = false then Except.error "error writing to state file"
  else Except.ok (serializeState n)

/-- Embedding of the duration-selection branch of `run_timer`
(src/main.rs lines 59–67).  Returns the effective duration in seconds and
the `was_continued` flag.  In the literal-seconds branch the source
computes `u64::try_from(-self.arg_duration).unwrap()`; at
`arg_duration = i32::MIN = -2^31` this panics (the `i32` negation
overflows in a debug build; in a release build it wraps to `i32::MIN`,
`u64::try_from` fails on the negative value, and `unwrap` panics), so
that input is modelled as an error.  For `0 < argDuration < 2^31` the
conversion always succeeds and `* 60` cannot overflow `u64`. -/
def effectiveDuration (saved : Nat) (restart : Bool) (argDuration : Int) :
    Except String (Nat × Bool) :=
  if 0 < saved ∧ restart = false then Except.ok (saved, true)
  else if 0 < argDuration then Except.ok (argDuration.toNat * 60, false)
  else if argDuration = -(2 ^ 31) then Except.error "attempt to negate with overflow"
  else Except.ok ((-argDuration).toNat, false)

/-- Discrete model of the countdown loop of `run_timer`
(src/main.rs lines 93–99):
`while (start.elapsed() < timer_duration) && !was_interrupted`
with a one-second sleep, after which the flag is read.  Each iteration
advances `elapsed` by one second and observes the flag's value at the new
tick.  The fuel argument only bounds recursion: called with
`fuel = dur - elapsed` it never runs out while the condition holds,
because every iteration increments `elapsed`.  Returns the final
`(elapsed, was_interrupted)` pair. -/
def tickLoop (flag : Nat → Bool) (dur : Nat) :
    Nat → Nat → Bool → Nat × Bool
  | 0, elapsed, interrupted => (elapsed, interrupted)
  | fuel + 1, elapsed, interrupted =>
    if elapsed < dur ∧ interrupted = false then
      tickLoop flag dur fuel (elapsed + 1) (flag (elapsed + 1))
    else (elapsed, interrupted)

/-- Observable outcome of one `run_timer` invocation. -/
structure RunOutcome where
  duration : Nat
  continued : Bool
  wasInterrupted : Bool
  persisted : Nat
  events : List Event
  deriving DecidableEq

/-- Embedding of `PomApp::run_timer` (src/main.rs lines 48–128): select
the effective duration, run the tick loop, then either take the
interrupted path — compute `timer_duration - start.elapsed()` (a Rust
`Duration` subtraction, which panics with "overflow when subtracting
durations" if elapsed exceeded the duration) and persist the remainder —
or the completion path, which persists `0` and fires the toast
notification.  The event trace records the state-file writes and the
notification in program order. -/
def run_timer (saved : Nat) (restart : Bool) (argDuration : Int)
    (flag : Nat → Bool) : Except String RunOutcome :=
  match effectiveDuration saved restart argDuration with
  | Except.error e => Except.error e
  | Except.ok (dur, continued) =>
    let r := tickLoop flag dur dur 0 false
    if r.2 then
      if r.1 ≤ dur then
        Except.ok ⟨dur, continued, true, dur - r.1, [Event.writeState (dur - r.1)]⟩
      else Except.error "overflow when subtracting durations"
    else
      Except.ok ⟨dur, continued, false, 0, [Event.writeState 0, Event.notify]⟩

/-! Helper lemmas about the decimal rendering and its parser. -/

/-- With enough fuel the fueled digit function agrees with `Nat.digits`. -/
theorem natDigitsAux_eq : ∀ fuel n, n ≤ fuel → natDigitsAux fuel n = Nat.digits 10 n := by
  intro fuel
  induction fuel with
  | zero =>
    intro n hn
    have h0 : n = 0 := Nat.le_zero.mp hn
    subst h0
    simp [natDigitsAux]
  | succ f ih =>
    intro n hn
    cases n with
    | zero => simp [natDigitsAux]
    | succ m =>
      have hdiv : (m + 1) / 10 ≤ f := by
        have := Nat.div_lt_self (Nat.succ_pos m) (by norm_num : 1 < 10)
        omega
      rw [natDigitsAux, ih ((m + 1) / 10) hdiv,
        Nat.digits_def' (by norm_num : 1 < 10) (Nat.succ_pos m)]

/-- The fueled digit list is exactly Mathlib's `Nat.digits 10`. -/
theorem natDigits_eq (n : Nat) : natDigits n = Nat.digits 10 n :=
  natDigitsAux_eq n n le_rfl

/-- A digit below ten renders to a character that is a decimal digit and
whose value is the digit itself. -/
theorem digitChar_facts :
    ∀ d, d < 10 → charVal (Nat.digitChar d) = d ∧ isDigitCh (Nat.digitChar d) = true := by
  decide

/-- Folding the parser's accumulator over a rendered digit run recovers
the positional value of the digits. -/
theorem foldl_digitChars (ds : List Nat) (hd : ∀ d ∈ ds, d < 10) (a : Nat) :
    ((ds.map Nat.digitChar).reverse).foldl (fun x c => x * 10 + charVal c) a
      = a * 10 ^ ds.length + Nat.ofDigits 10 ds := by
  induction ds generalizing a with
  | nil => simp [Nat.ofDigits]
  | cons d t ih =>
    have hd10 : d < 10 := hd d (List.mem_cons_self d t)
    rw [List.map_cons, List.reverse_cons, List.foldl_append,
      ih (fun x hx => hd x (List.mem_cons_of_mem _ hx))]
    simp only [List.foldl_cons, List.foldl_nil, Nat.ofDigits_cons,
      (digitChar_facts d hd10).1, List.length_cons, pow_succ]
    ring

/-- Parsing the rendered digits of `n` gives back `n`. -/
theorem valOfDigits_natChars (n : Nat) : valOfDigits (natChars n) = n := by
  by_cases h : n = 0
  · subst h; rfl
  · unfold natChars valOfDigits
    rw [if_neg h, natDigits_eq,
      foldl_digitChars _ (fun d hd => Nat.digits_lt_base (by norm_num) hd) 0]
    simp [Nat.ofDigits_digits]

/-- Every character of a rendered number is a decimal digit. -/
theorem natChars_digits_all (n : Nat) : ∀ c ∈ natChars n, isDigitCh c = true := by
  intro c hc
  unfold natChars at hc
  by_cases h : n = 0
  · rw [if_pos h] at hc
    simp only [List.mem_singleton] at hc
    subst hc; decide
  · rw [if_neg h, natDigits_eq] at hc
    rw [List.mem_reverse, List.mem_map] at hc
    obtain ⟨d, hd, rfl⟩ := hc
    exact (digitChar_facts d (Nat.digits_lt_base (by norm_num) hd)).2

/-- The rendering of a number is never the empty run. -/
theorem natChars_ne_nil (n : Nat) : natChars n ≠ [] := by
  unfold natChars
  by_cases h : n = 0
  · simp [h]
  · rw [if_neg h, natDigits_eq]
    simp [Nat.digits_ne_nil_iff_ne_zero.mpr h]

/-- A multi-digit rendering never starts with the zero character
(JSON numbers have no leading zeros). -/
theorem natChars_no_leading_zero (n : Nat) (h : 1 < (natChars n).length) :
    (natChars n).head? ≠ some '0' := by
  by_cases h0 : n = 0
  · subst h0; simp [natChars] at h
  · have hne : Nat.digits 10 n ≠ [] := Nat.digits_ne_nil_iff_ne_zero.mpr h0
    unfold natChars
    rw [if_neg h0, natDigits_eq, List.head?_reverse, List.getLast?_map,
      List.getLast?_eq_getLast _ hne]
    intro heq
    simp at heq
    have hlast_ne : (Nat.digits 10 n).getLast hne ≠ 0 :=
      Nat.getLast_digit_ne_zero 10 h0
    have hlast_lt : (Nat.digits 10 n).getLast hne < 10 :=
      Nat.digits_lt_base (by norm_num) (List.getLast_mem hne)
    have : ∀ d, d < 10 → d ≠ 0 → Nat.digitChar d ≠ '0' := by decide
    exact this _ hlast_lt hlast_ne heq

/-- takeWhile and dropWhile split a run of satisfying characters followed
by a failing character exactly at that character. -/
theorem takeWhile_all_append {p : Char → Bool} (l : List Char) (c : Char) (t : List Char)
    (hl : ∀ x ∈ l, p x = true) (hc : p c = false) :
    (l ++ c :: t).takeWhile p = l ∧ (l ++ c :: t).dropWhile p = c :: t := by
  induction l with
  | nil => simp [List.takeWhile_cons, List.dropWhile_cons, hc]
  | cons x xs ih =>
    have hx : p x = true := hl x (List.mem_cons_self x xs)
    have ihh := ih fun y hy => hl y (List.mem_cons_of_mem _ hy)
    simp [List.takeWhile_cons, List.dropWhile_cons, hx, ihh.1, ihh.2]

/-- Matching a head sequence against itself plus a remainder succeeds and
returns the remainder. -/
theorem matchHead_append (p rest : List Char) : matchHead p (p ++ rest) = some rest := by
  induction p with
  | nil => rfl
  | cons c cs ih => simp [matchHead, ih]

/-- The parser accepts exactly what the serializer wrote: the modelled
serde round trip on any `u64` value. -/
theorem parseState_serializeState (n : Nat) (hn : n < 2 ^ 64) :
    parseState (serializeState n) = some n := by
  unfold parseState serializeState
  rw [List.append_assoc, matchHead_append]
  obtain ⟨htw, hdw⟩ :=
    takeWhile_all_append (natChars n) '\x7d' [] (natChars_digits_all n) (by decide)
  simp only [htw, hdw]
  rw [if_pos ⟨natChars_ne_nil n, fun hlen => natChars_no_leading_zero n hlen, trivial,
    by rw [valOfDigits_natChars]; exact hn⟩, valOfDigits_natChars]

/-! Helper lemmas about the tick loop. -/

/-- Once the interruption flag has been observed, the loop exits at once. -/
theorem tickLoop_interrupted (flag : Nat → Bool) (dur : Nat) :
    ∀ fuel e, tickLoop flag dur fuel e true = (e, true) := by
  intro fuel e
  cases fuel <;> simp [tickLoop]

/-- If the flag is never set through tick `dur`, the loop runs to natural
completion: elapsed time `dur`, not interrupted. -/
theorem tickLoop_no_flag (flag : Nat → Bool) (dur : Nat)
    (hflag : ∀ j, j ≤ dur → flag j = false) :
    ∀ fuel e, fuel + e = dur → tickLoop flag dur fuel e false = (dur, false) := by
  intro fuel
  induction fuel with
  | zero =>
    intro e he
    have : e = dur := by omega
    subst this
    simp [tickLoop]
  | succ f ih =>
    intro e he
    have hedur : e < dur := by omega
    rw [tickLoop, if_pos ⟨hedur, rfl⟩, hflag (e + 1) (by omega)]
    exact ih (e + 1) (by omega)

/-- If the flag is first observed set at tick `k ≤ dur`, the loop exits
with elapsed time `k`, interrupted. -/
theorem tickLoop_first_flag (flag : Nat → Bool) (dur k : Nat)
    (hkd : k ≤ dur) (hk : flag k = true)
    (hbefore : ∀ j, j < k → 1 ≤ j → flag j = false) :
    ∀ fuel e, fuel + e = dur → e < k → tickLoop flag dur fuel e false = (k, true) := by
  intro fuel
  induction fuel with
  | zero =>
    intro e he hek
    omega
  | succ f ih =>
    intro e he hek
    have hedur : e < dur := by omega
    rw [tickLoop, if_pos ⟨hedur, rfl⟩]
    by_cases hcase : e + 1 = k
    · rw [hcase, hk]
      exact tickLoop_interrupted flag dur f k
    · rw [hbefore (e + 1) (by omega) (by omega)]
      exact ih (e + 1) (by omega) (by omega)

/-- The loop never lets elapsed time pass the duration: starting at or
below `dur`, it stops at or below `dur`. -/
theorem tickLoop_le (flag : Nat → Bool) (dur : Nat) :
    ∀ fuel e i, e ≤ dur → (tickLoop flag dur fuel e i).1 ≤ dur := by
  intro fuel
  induction fuel with
  | zero => intro e i he; simpa [tickLoop] using he
  | succ f ih =>
    intro e i he
    rw [tickLoop]
    by_cases h : e < dur ∧ i = false
    · rw [if_pos h]
      exact ih (e + 1) _ (by omega)
    · rw [if_neg h]
      exact he

/-- Closed form of a run once the duration is selected: the loop result
decides between the interrupted and the completed path, and the
subtraction guard is discharged by `tickLoop_le`. -/
theorem run_timer_eq (saved : Nat) (restart : Bool) (d : Int) (flag : Nat → Bool)
    (D : Nat) (c : Bool)
    (hsel : effectiveDuration saved restart d = Except.ok (D, c)) :
    run_timer saved restart d flag =
      if (tickLoop flag D D 0 false).2 then
        Except.ok ⟨D, c, true, D - (tickLoop flag D D 0 false).1,
          [Event.writeState (D - (tickLoop flag D D 0 false).1)]⟩
      else Except.ok ⟨D, c, false, 0, [Event.writeState 0, Event.notify]⟩ := by
  have hle := tickLoop_le flag D D 0 false (Nat.zero_le D)
  cases h2 : (tickLoop flag D D 0 false).2 <;>
    simp [run_timer, hsel, h2, hle]

/-! Claim theorems. -/

/-- C1 counterexample: at `requestedMinutes = -2^31` (`i32::MIN`), with no
resumable state, the literal-seconds branch does not produce
`|requestedMinutes|` seconds as the claim states — the negation/conversion
panics, so the run aborts with no effective duration at all. -/
theorem duration_selection_min_panics :
    effectiveDuration 0 false (-(2 ^ 31)) =
      Except.error "attempt to negate with overflow" ∧
    effectiveDuration 0 false (-(2 ^ 31)) ≠
      Except.ok (Int.natAbs (-(2 ^ 31)), false) := by
  exact ⟨rfl, by decide⟩

/-- C1 (amended): for every `i32` value of `requestedMinutes` other than
`i32::MIN = -2^31`, duration selection follows the three-rule priority
order — persisted `secondsRemaining > 0` without `forceRestart` resumes
that many seconds marked continued; otherwise a positive
`requestedMinutes` gives `requestedMinutes * 60` seconds; otherwise
`|requestedMinutes|` seconds — and with `forceRestart = true` the
persisted state is ignored regardless of its value.  (At
`requestedMinutes = -2^31` the conversion in the third rule panics.) -/
theorem duration_selection_priority (saved : Nat) (restart : Bool) (d : Int)
    (hlo : -(2 ^ 31) ≤ d) (hhi : d < 2 ^ 31) (hne : d ≠ -(2 ^ 31)) :
    effectiveDuration saved restart d =
      Except.ok (if 0 < saved ∧ restart = false then (saved, true)
        else if 0 < d then (d.toNat * 60, false)
        else (d.natAbs, false)) ∧
    effectiveDuration saved true d = effectiveDuration 0 true d := by
  constructor
  · unfold effectiveDuration
    by_cases h1 : 0 < saved ∧ restart = false
    · rw [if_pos h1, if_pos h1]
    · rw [if_neg h1, if_neg h1]
      by_cases h2 : 0 < d
      · rw [if_pos h2, if_pos h2]
      · rw [if_neg h2, if_neg h2, if_neg hne]
        have habs : (-d).toNat = d.natAbs := by omega
        rw [habs]
  · simp [effectiveDuration]

/-- C1 witness: the amended selection rule applied at persisted 5,
no restart, requested -7. -/
theorem duration_selection_priority_witness :
    effectiveDuration 5 false (-7) =
      Except.ok (if 0 < 5 ∧ false = false then (5, true)
        else if 0 < (-7 : Int) then ((-7 : Int).toNat * 60, false)
        else ((-7 : Int).natAbs, false)) ∧
    effectiveDuration 5 true (-7) = effectiveDuration 0 true (-7) :=
  duration_selection_priority 5 false (-7) (by decide) (by decide) (by decide)

/-- C2 counterexample: a file that opens but holds malformed content
(here the single character x) does not load as `secondsRemaining = 0`;
`get_saved_state` hits the "error while reading json" panic instead. -/
theorem load_malformed_panics :
    get_saved_state (some ['x']) = Except.error "error while reading json" ∧
    get_saved_state (some ['x']) ≠ Except.ok 0 := by
  exact ⟨rfl, by decide⟩

/-- C2 (amended): a missing state file (failing `File::open`) loads as
`secondsRemaining = 0`, but a file whose content does not parse makes
`get_saved_state` panic with "error while reading json" rather than
return 0. -/
theorem load_missing_or_malformed (content : List Char)
    (hbad : parseState content = none) :
    get_saved_state none = Except.ok 0 ∧
    get_saved_state (some content) = Except.error "error while reading json" := by
  refine ⟨rfl, ?_⟩
  simp [get_saved_state, hbad]

/-- C2 witness: the amended load behaviour at the malformed content x. -/
theorem load_missing_or_malformed_witness :
    get_saved_state none = Except.ok 0 ∧
    get_saved_state (some ['x']) = Except.error "error while reading json" :=
  load_missing_or_malformed ['x'] rfl

/-- C10: under the precondition `requestedMinutes > i32::MIN`, the
literal-seconds branch is total: whenever it is reached (no resumable
state applies) with non-positive `requestedMinutes`, the negation and
conversion succeed and yield `|requestedMinutes|` seconds; the
precondition is necessary because at `-2^31` the conversion panics. -/
theorem literal_seconds_branch_total (saved : Nat) (restart : Bool) (d : Int)
    (hlo : -(2 ^ 31) < d) (hle : d ≤ 0)
    (hnores : ¬(0 < saved ∧ restart = false)) :
    effectiveDuration saved restart d = Except.ok (d.natAbs, false) ∧
    effectiveDuration 0 false (-(2 ^ 31)) =
      Except.error "attempt to negate with overflow" := by
  refine ⟨?_, rfl⟩
  unfold effectiveDuration
  rw [if_neg hnores, if_neg (by omega : ¬0 < d), if_neg (by omega : ¬d = -(2 ^ 31))]
  have habs : (-d).toNat = d.natAbs := by omega
  rw [habs]

/-- C10 witness: the literal-seconds branch at requested -5 under a
forced restart. -/
theorem literal_seconds_branch_total_witness :
    effectiveDuration 0 true (-5) = Except.ok ((-5 : Int).natAbs, false) ∧
    effectiveDuration 0 false (-(2 ^ 31)) =
      Except.error "attempt to negate with overflow" :=
  literal_seconds_branch_total 0 true (-5) (by decide) (by decide) (by decide)

/-- C6: a failure of either file operation in `save_state` — creating the
state file or writing to it — is fatal: the run ends in the corresponding
panic (process abort with non-zero status and a diagnostic message),
never a silent success. -/
theorem save_failure_fatal (createOk writeOk : Bool) (n : Nat)
    (h : createOk = false ∨ writeOk = false) :
    save_state createOk writeOk n =
      Except.error (if createOk = false then "cannot create state file"
        else "error writing to state file") := by
  cases createOk
  · simp [save_state]
  · have hw : writeOk = false := by
      rcases h with h | h
      · exact absurd h (by simp)
      · exact h
    subst hw
    simp [save_state]

/-- C6 witness: a failing `File::create` on saving 7 seconds. -/
theorem save_failure_fatal_witness :
    save_state false true 7 =
      Except.error (if (false : Bool) = false then "cannot create state file"
        else "error writing to state file") :=
  save_failure_fatal false true 7 (Or.inl rfl)

/-- C7: round trip of the state store — saving any `u64` value `n` and
loading it back yields `secondsRemaining = n` (so in particular saving 0
loads as 0), and a run starting from the state loaded after saving 0 is
the very run that starts fresh with the same requested duration. -/
theorem save_load_round_trip (n m : Nat) (restart : Bool) (d : Int)
    (flag : Nat → Bool) (hn : n < 2 ^ 64)
    (hm : get_saved_state (some (serializeState 0)) = Except.ok m) :
    save_state true true n = Except.ok (serializeState n) ∧
    get_saved_state (some (serializeState n)) = Except.ok n ∧
    run_timer m restart d flag = run_timer 0 restart d flag := by
  have h0 : get_saved_state (some (serializeState 0)) = Except.ok 0 := by
    simp [get_saved_state, parseState_serializeState 0 (by norm_num)]
  rw [h0] at hm
  cases hm
  refine ⟨rfl, ?_, rfl⟩
  simp [get_saved_state, parseState_serializeState n hn]

/-- C7 witness: the round trip at 57 seconds, followed by a fresh run of
3 literal seconds. -/
theorem save_load_round_trip_witness :
    save_state true true 57 = Except.ok (serializeState 57) ∧
    get_saved_state (some (serializeState 57)) = Except.ok 57 ∧
    run_timer 0 false (-3) (fun _ => false) =
      run_timer 0 false (-3) (fun _ => false) :=
  save_load_round_trip 57 0 false (-3) (fun _ => false) (by decide) rfl

/-- C3: interruption invariant — if the interruption flag is first
observed set at tick `k` (1-indexed seconds elapsed) with `k` below the
effective duration `D`, the run persists exactly `D - k` and the
completion notification never fires. -/
theorem interruption_invariant (saved : Nat) (restart : Bool) (d : Int)
    (flag : Nat → Bool) (D : Nat) (c : Bool) (k : Nat)
    (hsel : effectiveDuration saved restart d = Except.ok (D, c))
    (hk1 : 1 ≤ k) (hkD : k < D) (hk : flag k = true)
    (hbefore : ∀ j, j < k → 1 ≤ j → flag j = false) :
    run_timer saved restart d flag =
      Except.ok ⟨D, c, true, D - k, [Event.writeState (D - k)]⟩ ∧
    Event.notify ∉ [Event.writeState (D - k)] := by
  have hloop : tickLoop flag D D 0 false = (k, true) :=
    tickLoop_first_flag flag D k (le_of_lt hkD) hk hbefore D 0 (by omega) (by omega)
  refine ⟨?_, by simp⟩
  rw [run_timer_eq saved restart d flag D c hsel, hloop]
  simp

/-- C3 witness: a 10-second run whose flag is first set at tick 3
persists 7 and does not notify. -/
theorem interruption_invariant_witness :
    run_timer 0 false (-10) (fun j => decide (3 ≤ j)) =
      Except.ok ⟨10, false, true, 10 - 3, [Event.writeState (10 - 3)]⟩ ∧
    Event.notify ∉ [Event.writeState (10 - 3)] :=
  interruption_invariant 0 false (-10) (fun j => decide (3 ≤ j)) 10 false 3
    rfl (by decide) (by decide) (by decide) (by decide)

/-- C4: completion invariant — if the flag is never observed set through
the last tick of the effective duration `D`, the loop reaches
`elapsed = D`, the run persists 0, and exactly one completion
notification fires. -/
theorem completion_invariant (saved : Nat) (restart : Bool) (d : Int)
    (flag : Nat → Bool) (D : Nat) (c : Bool)
    (hsel : effectiveDuration saved restart d = Except.ok (D, c))
    (hflag : ∀ j, j ≤ D → flag j = false) :
    run_timer saved restart d flag =
      Except.ok ⟨D, c, false, 0, [Event.writeState 0, Event.notify]⟩ ∧
    List.count Event.notify [Event.writeState 0, Event.notify] = 1 := by
  have hloop : tickLoop flag D D 0 false = (D, false) :=
    tickLoop_no_flag flag D hflag D 0 (by omega)
  refine ⟨?_, by decide⟩
  rw [run_timer_eq saved restart d flag D c hsel, hloop]
  simp

/-- C4 witness: a 5-second run that is never interrupted persists 0 and
notifies once. -/
theorem completion_invariant_witness :
    run_timer 0 false (-5) (fun _ => false) =
      Except.ok ⟨5, false, false, 0, [Event.writeState 0, Event.notify]⟩ ∧
    List.count Event.notify [Event.writeState 0, Event.notify] = 1 :=
  completion_invariant 0 false (-5) (fun _ => false) 5 false rfl (by decide)

/-- C5: wherever the loop stops, elapsed time never exceeds the effective
duration, so the `Duration` subtraction on the interrupted path cannot
underflow — the run never aborts with the underflow panic — and the
persisted remainder is `D - elapsed` on interruption and the clamped 0 on
natural completion. -/
theorem remaining_never_negative (saved : Nat) (restart : Bool) (d : Int)
    (flag : Nat → Bool) (D : Nat) (c : Bool)
    (hsel : effectiveDuration saved restart d = Except.ok (D, c)) :
    (tickLoop flag D D 0 false).1 ≤ D ∧
    run_timer saved restart d flag ≠
      Except.error "overflow when subtracting durations" ∧
    run_timer saved restart d flag =
      (if (tickLoop flag D D 0 false).2 then
        Except.ok ⟨D, c, true, D - (tickLoop flag D D 0 false).1,
          [Event.writeState (D - (tickLoop flag D D 0 false).1)]⟩
      else Except.ok ⟨D, c, false, 0, [Event.writeState 0, Event.notify]⟩) := by
  have heq := run_timer_eq saved restart d flag D c hsel
  refine ⟨tickLoop_le flag D D 0 false (Nat.zero_le D), ?_, heq⟩
  rw [heq]
  cases h2 : (tickLoop flag D D 0 false).2 <;> simp

/-- C5 witness: a 4-second run interrupted at tick 2 — elapsed 2 stays
below the duration and the persisted remainder is the non-negative 2. -/
theorem remaining_never_negative_witness :
    (tickLoop (fun j => decide (j = 2)) 4 4 0 false).1 ≤ 4 ∧
    run_timer 0 false (-4) (fun j => decide (j = 2)) ≠
      Except.error "overflow when subtracting durations" ∧
    run_timer 0 false (-4) (fun j => decide (j = 2)) =
      (if (tickLoop (fun j => decide (j = 2)) 4 4 0 false).2 then
        Except.ok ⟨4, false, true, 4 - (tickLoop (fun j => decide (j = 2)) 4 4 0 false).1,
          [Event.writeState (4 - (tickLoop (fun j => decide (j = 2)) 4 4 0 false).1)]⟩
      else Except.ok ⟨4, false, false, 0, [Event.writeState 0, Event.notify]⟩) :=
  remaining_never_negative 0 false (-4) (fun j => decide (j = 2)) 4 false rfl

/-- C8: with `forceRestart = true` the persisted file is never cleared or
written before or during the countdown: such a run is the same run as one
with no persisted state at all, and its event trace contains exactly one
state-file write, carrying the run's final remaining time. -/
theorem restart_single_write (saved : Nat) (d : Int) (flag : Nat → Bool)
    (out : RunOutcome)
    (h : run_timer saved true d flag = Except.ok out) :
    run_timer saved true d flag = run_timer 0 true d flag ∧
    List.filter isStateWrite out.events = [Event.writeState out.persisted] := by
  have hsel : effectiveDuration saved true d = effectiveDuration 0 true d := by
    simp [effectiveDuration]
  refine ⟨by unfold run_timer; rw [hsel], ?_⟩
  rcases hED : effectiveDuration saved true d with e | ⟨D, c⟩
  · unfold run_timer at h
    rw [hED] at h
    exact absurd h (by simp)
  · rw [run_timer_eq saved true d flag D c hED] at h
    by_cases h2 : (tickLoop flag D D 0 false).2
    · rw [if_pos h2] at h
      cases h
      simp [isStateWrite]
    · rw [if_neg h2] at h
      cases h
      simp [isStateWrite]

/-- C8 witness: a forced restart over persisted state 42, interrupted at
tick 2 of its fresh 6-second duration, writing the state file exactly
once with the new remainder 4. -/
theorem restart_single_write_witness :
    run_timer 42 true (-6) (fun j => decide (j = 2)) =
      run_timer 0 true (-6) (fun j => decide (j = 2)) ∧
    List.filter isStateWrite
        (RunOutcome.events ⟨6, false, true, 4, [Event.writeState 4]⟩) =
      [Event.writeState (RunOutcome.persisted ⟨6, false, true, 4, [Event.writeState 4]⟩)] :=
  restart_single_write 42 (-6) (fun j => decide (j = 2))
    ⟨6, false, true, 4, [Event.writeState 4]⟩ (by decide)

/-- C9: boundary tick — if the flag is first observed set at the very
tick at which elapsed time reaches the effective duration `D`, the run is
classified as interrupted: the interrupted persistence path runs
(persisting `D - D = 0`) and no completion notification fires, because
the flag is read inside the loop body after the sleep, before the loop
condition re-tests elapsed time. -/
theorem boundary_tick_interruption (saved : Nat) (restart : Bool) (d : Int)
    (flag : Nat → Bool) (D : Nat) (c : Bool)
    (hsel : effectiveDuration saved restart d = Except.ok (D, c))
    (hD : 1 ≤ D) (hk : flag D = true)
    (hbefore : ∀ j, j < D → 1 ≤ j → flag j = false) :
    run_timer saved restart d flag =
      Except.ok ⟨D, c, true, D - D, [Event.writeState (D - D)]⟩ ∧
    Event.notify ∉ [Event.writeState (D - D)] := by
  have hloop : tickLoop flag D D 0 false = (D, true) :=
    tickLoop_first_flag flag D D le_rfl hk hbefore D 0 (by omega) (by omega)
  refine ⟨?_, by simp⟩
  rw [run_timer_eq saved restart d flag D c hsel, hloop]
  simp

/-- C9 witness: a 5-second run whose flag is first set at tick 5 takes
the interrupted path with remainder 0 and no notification. -/
theorem boundary_tick_interruption_witness :
    run_timer 0 false (-5) (fun j => decide (5 ≤ j)) =
      Except.ok ⟨5, false, true, 5 - 5, [Event.writeState (5 - 5)]⟩ ∧
    Event.notify ∉ [Event.writeState (5 - 5)] :=
  boundary_tick_interruption 0 false (-5) (fun j => decide (5 ≤ j)) 5 false
    rfl (by decide) (by decide) (by decide)

end RustyPom
